import Mathlib

/-!
Verification of the multi-agent data-analysis pipeline
(`agents/code_interpreter.py`, `agents/visualization_agent.py`,
`agents/presentation_agent.py`, `agents/answer_synthesiser.py`).

The Python code is shallowly embedded: dictionaries become association
lists with Python's update-in-place-or-append semantics, `exec` of a
generated script becomes an abstract script semantics mapping the initial
global binding set to either a final binding set plus captured stdout or
a raised exception, and each agent's `process` method becomes a function
returning `Except`, where `Except.error` models an exception escaping
the method.
-/

namespace MultiAgent

/-! ## Association lists with Python dict semantics -/

/-- First-match lookup in an association list (Python `d[k]` / `d.get(k)`). -/
def alookup {α : Type} : List (String × α) → String → Option α
  | [], _ => none
  | (k', v) :: rest, k => if k' = k then some v else alookup rest k

/-- Python `d[k] = v`: overwrite the first binding of `k` in place,
otherwise append the new binding at the end (insertion order). -/
def dictSet {α : Type} : List (String × α) → String → α → List (String × α)
  | [], k, v => [(k, v)]
  | (k', v') :: rest, k, v =>
    if k' = k then (k, v) :: rest else (k', v') :: dictSet rest k v

theorem alookup_dictSet_self {α : Type} (m : List (String × α)) (k : String) (v : α) :
    alookup (dictSet m k v) k = some v := by
  induction m with
  | nil => simp [dictSet, alookup]
  | cons p rest ih =>
    obtain ⟨k', v'⟩ := p
    by_cases h : k' = k <;> simp [dictSet, alookup, h, ih]

theorem alookup_dictSet_ne {α : Type} (m : List (String × α)) (k k' : String) (v : α)
    (h : k ≠ k') : alookup (dictSet m k' v) k = alookup m k := by
  have h' : ¬k' = k := fun e => h e.symm
  induction m with
  | nil => simp [dictSet, alookup, h']
  | cons p rest ih =>
    obtain ⟨k'', v''⟩ := p
    by_cases h2 : k'' = k'
    · subst h2
      simp [dictSet, alookup, h']
    · by_cases h3 : k'' = k <;> simp [dictSet, alookup, h2, h3, ih, h, h']

theorem mem_keys_dictSet {α : Type} (m : List (String × α)) (k a : String) (v : α) :
    a ∈ (dictSet m k v).map Prod.fst ↔ a ∈ m.map Prod.fst ∨ a = k := by
  induction m with
  | nil => simp [dictSet]
  | cons p rest ih =>
    obtain ⟨k', v'⟩ := p
    by_cases h : k' = k
    · subst h
      simp [dictSet]
      tauto
    · simp [dictSet, h, ih]
      tauto

theorem nodup_keys_dictSet {α : Type} (m : List (String × α)) (k : String) (v : α)
    (h : (m.map Prod.fst).Nodup) : ((dictSet m k v).map Prod.fst).Nodup := by
  induction m with
  | nil => simp [dictSet]
  | cons p rest ih =>
    obtain ⟨k', v'⟩ := p
    simp only [List.map_cons, List.nodup_cons] at h
    by_cases hk : k' = k
    · subst hk
      simpa [dictSet] using h
    · simp only [dictSet, hk, if_false, List.map_cons, List.nodup_cons]
      refine ⟨?_, ih h.2⟩
      rw [mem_keys_dictSet]
      push_neg
      exact ⟨h.1, hk⟩

/-! ## Value model of the Analysis sandbox

`PyVal` covers the runtime types the harvesting code in
`CodeInterpreterAgent._execute_code` distinguishes: the simple types of
`isinstance(value, (int, float, str, bool, list, dict))`, pandas
DataFrames, numpy arrays, and anything else (modules such as `pd`/`np`,
functions, objects, ...). -/

/-- A pandas DataFrame: shape plus column names and cell data
(the harvesting code only ever reads `.shape`). -/
structure DataFrame where
  nrows : Nat
  ncols : Nat
  cols : List String
  data : List (List Int)
  deriving Repr, DecidableEq

inductive PyVal where
  | int (n : Int)
  | str (s : String)
  | bool (b : Bool)
  | pylist (xs : List Int)
  | pydict (m : List (String × Int))
  | df (d : DataFrame)
  | arr (shape : List Nat) (data : List Int)
  | other (tag : Nat)
  deriving Repr, DecidableEq

/-- What `_execute_code` records in the result.vars map (Python result["variables"]) for one binding:
either the value itself, or (for DataFrames and ndarrays) only a shape
descriptor — the model of the strings `f"DataFrame{value.shape}"` and
`f"Array{value.shape}"`. -/
inductive VarDesc where
  | value (v : PyVal)
  | dfShape (nrows ncols : Nat)
  | arrShape (shape : List Nat)
  deriving Repr, DecidableEq

/-- The Table Registry `self.dataframes`. -/
abbrev Registry : Type := List (String × DataFrame)

/-- Outcome of `exec(code, exec_globals)`: either the final global binding
set together with the text written to stdout, or an exception message
together with the text written to stderr. -/
inductive ExecOutcome where
  | ok (globals : List (String × PyVal)) (stdout : String)
  | exn (msg : String) (stderr : String)

/-- A script's semantics: what `exec` does given the initial globals. -/
def Script : Type := List (String × PyVal) → ExecOutcome

/-- The initial `exec_globals` of `_execute_code`:
`{"pd": pd, "np": np, **self.dataframes}`. -/
def initGlobals (st : Registry) : List (String × PyVal) :=
  st.foldl (fun m p => dictSet m p.1 (PyVal.df p.2))
    [("pd", PyVal.other 0), ("np", PyVal.other 1)]

/-- The skip condition of the harvesting loop:
`key.startswith("_") or key in ["pd", "np"]` (negated in the source). -/
def skipName (k : String) : Bool :=
  List.isPrefixOf "_".data k.data || k.data == "pd".data || k.data == "np".data

theorem skipName_false (k : String) (h : skipName k = false) :
    k ≠ "pd" ∧ k ≠ "np" := by
  simp only [skipName, Bool.or_eq_false_iff, beq_eq_false_iff_ne, ne_eq] at h
  refine ⟨fun e => h.1.2 ?_, fun e => h.2 ?_⟩ <;> rw [e]

/-- Is the value one of `isinstance(value, (int, float, str, bool, list, dict))`? -/
def isSimpleVal : PyVal → Bool
  | .int _ | .str _ | .bool _ | .pylist _ | .pydict _ => true
  | _ => false

/-- The harvesting loop of `_execute_code`: walk the final globals in
order; capture simple values by value; capture a DataFrame by shape
descriptor and write it back into `self.dataframes`; capture an ndarray
by shape descriptor; ignore everything else. -/
def harvestLoop : List (String × PyVal) → Registry →
    List (String × VarDesc) × Registry
  | [], regs => ([], regs)
  | (k, v) :: rest, regs =>
    if skipName k then harvestLoop rest regs
    else
      match v with
      | .int _ | .str _ | .bool _ | .pylist _ | .pydict _ =>
        let p := harvestLoop rest regs
        ((k, VarDesc.value v) :: p.1, p.2)
      | .df d =>
        let p := harvestLoop rest (dictSet regs k d)
        ((k, VarDesc.dfShape d.nrows d.ncols) :: p.1, p.2)
      | .arr s _ =>
        let p := harvestLoop rest regs
        ((k, VarDesc.arrShape s) :: p.1, p.2)
      | .other _ => harvestLoop rest regs

/-- Model of `ScriptResult`: the dict built by `_execute_code`. -/
structure ExecResult where
  code : String
  success : Bool
  output : String
  error : Option String
  vars : List (String × VarDesc)
  deriving Repr, DecidableEq

/-- Model of `CodeInterpreterAgent._execute_code`, with the Table Registry passed
and returned explicitly. On success the result carries captured stdout
and the harvested variables; on an exception the result carries stderr
and the error text, no variable is harvested, and the registry is
untouched. -/
def executeCode (code : String) (sem : Script) (st : Registry) :
    ExecResult × Registry :=
  match sem (initGlobals st) with
  | .ok g out =>
    let p := harvestLoop g st
    ({ code := code, success := true, output := out, error := none,
       vars := p.1 }, p.2)
  | .exn msg errout =>
    ({ code := code, success := false, output := errout, error := some msg,
       vars := [] }, st)

/-! ## Characterization of the harvesting loop -/

/-- The classification the harvesting loop applies to one non-skipped
binding: `none` means the binding is absent from the harvested map. -/
def harvestDesc : PyVal → Option VarDesc
  | .int n => some (.value (.int n))
  | .str s => some (.value (.str s))
  | .bool b => some (.value (.bool b))
  | .pylist xs => some (.value (.pylist xs))
  | .pydict m => some (.value (.pydict m))
  | .df d => some (.dfShape d.nrows d.ncols)
  | .arr s _ => some (.arrShape s)
  | .other _ => none

theorem alookup_eq_none {α : Type} (m : List (String × α)) (k : String)
    (h : k ∉ m.map Prod.fst) : alookup m k = none := by
  induction m with
  | nil => rfl
  | cons p rest ih =>
    obtain ⟨k', v⟩ := p
    simp only [List.map_cons, List.mem_cons] at h
    push_neg at h
    have hne : ¬k' = k := fun e => h.1 e.symm
    simp [alookup, hne, ih h.2]

/-- Looking up a name other than `pd`/`np` in the initial `exec_globals`
finds exactly the registry's table for that name, wrapped as a value. -/
theorem alookup_initGlobals (st : Registry) (k : String)
    (hst : (st.map Prod.fst).Nodup) (hpd : k ≠ "pd") (hnp : k ≠ "np") :
    alookup (initGlobals st) k = (alookup st k).map PyVal.df := by
  have base :
      ∀ (st : Registry) (b : List (String × PyVal)),
        (st.map Prod.fst).Nodup →
        alookup (st.foldl (fun m p => dictSet m p.1 (PyVal.df p.2)) b) k =
          match alookup st k with
          | some d => some (PyVal.df d)
          | none => alookup b k := by
    intro st
    induction st with
    | nil => intro b _; rfl
    | cons p rest ih =>
      intro b hnd
      obtain ⟨k', d⟩ := p
      simp only [List.map_cons, List.nodup_cons] at hnd
      simp only [List.foldl_cons]
      rw [ih _ hnd.2]
      by_cases hk : k' = k
      · subst hk
        rw [alookup_eq_none rest k' hnd.1]
        simp [alookup, alookup_dictSet_self]
      · simp [alookup, hk, alookup_dictSet_ne _ _ _ _ (fun e => hk e.symm)]
  unfold initGlobals
  rw [base st _ hst]
  have h1 : ¬"pd" = k := fun e => hpd e.symm
  have h2 : ¬"np" = k := fun e => hnp e.symm
  cases h : alookup st k <;> simp [alookup, h1, h2]

theorem alookup_harvest_vars_none (g : List (String × PyVal)) (regs : Registry)
    (k : String) (h : k ∉ g.map Prod.fst) :
    alookup (harvestLoop g regs).1 k = none := by
  induction g generalizing regs with
  | nil => rfl
  | cons p rest ih =>
    obtain ⟨k', v⟩ := p
    simp only [List.map_cons, List.mem_cons] at h
    push_neg at h
    have hne : ¬k' = k := fun e => h.1 e.symm
    by_cases hs : skipName k'
    · simpa [harvestLoop, hs] using ih regs h.2
    · cases v <;> simp only [harvestLoop, hs, if_false, Bool.false_eq_true,
        alookup, hne] <;> exact ih _ h.2

theorem alookup_harvest_vars (g : List (String × PyVal)) (regs : Registry)
    (k : String) (hg : (g.map Prod.fst).Nodup) :
    alookup (harvestLoop g regs).1 k =
      match alookup g k with
      | none => none
      | some v => if skipName k then none else harvestDesc v := by
  induction g generalizing regs with
  | nil => rfl
  | cons p rest ih =>
    obtain ⟨k', v⟩ := p
    simp only [List.map_cons, List.nodup_cons] at hg
    by_cases hk : k' = k
    · subst hk
      by_cases hs : skipName k'
      · have h1 := alookup_harvest_vars_none rest regs k' hg.1
        simp [harvestLoop, hs, alookup, h1]
      · cases v <;>
          simp [harvestLoop, hs, alookup, harvestDesc,
            alookup_harvest_vars_none rest _ k' hg.1]
    · have hne : ¬k' = k := hk
      by_cases hs : skipName k'
      · simp only [harvestLoop, hs, if_true, alookup, hne, if_false]
        exact ih regs hg.2
      · cases v <;> simp only [harvestLoop, hs, if_false, Bool.false_eq_true,
          alookup, hne] <;> exact ih _ hg.2

theorem alookup_harvest_reg_notmem (g : List (String × PyVal)) (regs : Registry)
    (k : String) (h : k ∉ g.map Prod.fst) :
    alookup (harvestLoop g regs).2 k = alookup regs k := by
  induction g generalizing regs with
  | nil => rfl
  | cons p rest ih =>
    obtain ⟨k', v⟩ := p
    simp only [List.map_cons, List.mem_cons] at h
    push_neg at h
    by_cases hs : skipName k'
    · simpa [harvestLoop, hs] using ih regs h.2
    · cases v with
      | df d =>
        simp only [harvestLoop, hs, if_false, Bool.false_eq_true]
        rw [ih _ h.2, alookup_dictSet_ne _ _ _ _ h.1]
      | _ =>
        simp only [harvestLoop, hs, if_false, Bool.false_eq_true]
        exact ih _ h.2

theorem alookup_harvest_reg (g : List (String × PyVal)) (regs : Registry)
    (k : String) (hg : (g.map Prod.fst).Nodup) :
    alookup (harvestLoop g regs).2 k =
      match alookup g k with
      | some (.df d) => if skipName k then alookup regs k else some d
      | _ => alookup regs k := by
  induction g generalizing regs with
  | nil => rfl
  | cons p rest ih =>
    obtain ⟨k', v⟩ := p
    simp only [List.map_cons, List.nodup_cons] at hg
    by_cases hk : k' = k
    · subst hk
      by_cases hs : skipName k'
      · have h1 := alookup_harvest_reg_notmem rest regs k' hg.1
        cases v <;> simp [harvestLoop, hs, alookup, h1]
      · cases v with
        | df d =>
          simp only [harvestLoop, hs, if_false, Bool.false_eq_true, alookup,
            if_pos rfl]
          rw [alookup_harvest_reg_notmem rest _ k' hg.1,
            alookup_dictSet_self]
          simp [hs]
        | _ =>
          simp only [harvestLoop, hs, if_false, Bool.false_eq_true, alookup,
            if_pos rfl]
          rw [alookup_harvest_reg_notmem rest _ k' hg.1]
          simp
    · have hne : ¬k' = k := hk
      by_cases hs : skipName k'
      · simp only [harvestLoop, hs, if_true, alookup, hne, if_false]
        exact ih regs hg.2
      · cases v with
        | df d =>
          simp only [harvestLoop, hs, if_false, Bool.false_eq_true, alookup,
            hne]
          rw [ih _ hg.2, alookup_dictSet_ne _ _ _ _ (fun e => hne e.symm)]
        | _ =>
          simp only [harvestLoop, hs, if_false, Bool.false_eq_true, alookup,
            hne]
          exact ih _ hg.2

theorem nodup_keys_harvest_reg (g : List (String × PyVal)) (regs : Registry)
    (h : (regs.map Prod.fst).Nodup) :
    ((harvestLoop g regs).2.map Prod.fst).Nodup := by
  induction g generalizing regs with
  | nil => exact h
  | cons p rest ih =>
    obtain ⟨k, v⟩ := p
    by_cases hs : skipName k
    · simpa [harvestLoop, hs] using ih regs h
    · cases v <;> simp only [harvestLoop, hs, if_false, Bool.false_eq_true] <;>
        first
          | exact ih regs h
          | exact ih _ (nodup_keys_dictSet _ _ _ h)

/-! ## Script Extractor (`_extract_code_blocks`)

The identical extractor appears in `CodeInterpreterAgent` and
`VisualizationAgent`; it is embedded once. -/

/-- Drop leading whitespace characters. -/
def dropLeadingWs : List Char → List Char
  | [] => []
  | c :: rest => if c.isWhitespace then dropLeadingWs rest else c :: rest

/-- Python `str.strip()`: drop whitespace from both ends. -/
def pyStrip (l : List Char) : List Char :=
  ((dropLeadingWs (dropLeadingWs l).reverse)).reverse

/-- The test `line.strip().startswith("```python")`. -/
def isOpenFence (l : String) : Bool :=
  List.isPrefixOf "```python".data (pyStrip l.data)

/-- The test `line.strip() == "```"`. -/
def isCloseFence (l : String) : Bool := pyStrip l.data == "```".data

/-- Python `text.split("\n")` on the character list: every newline
separates two (possibly empty) segments. -/
def splitOnNl : List Char → List (List Char)
  | [] => [[]]
  | c :: rest =>
    let r := splitOnNl rest
    if c = '\n' then [] :: r
    else
      match r with
      | [] => [[c]]
      | h :: t => (c :: h) :: t

/-- Python `text.split("\n")` as a list of line strings. -/
def splitLines (text : String) : List String :=
  (splitOnNl text.data).map (fun l => ⟨l⟩)

/-- Python `"\n".join(lines)`. -/
def joinLines : List String → String
  | [] => ""
  | [l] => l
  | l :: rest => ⟨l.data ++ '\n' :: (joinLines rest).data⟩

/-- The line loop of `_extract_code_blocks`: `inBlock` is `in_code_block`,
`cur` is `current_block`; an empty `current_block` at a closing fence is
not appended (`if current_block:`); a block still open at end-of-input is
dropped. -/
def extractLoop (inBlock : Bool) (cur : List String) :
    List String → List String
  | [] => []
  | l :: rest =>
    if isOpenFence l then extractLoop true [] rest
    else if isCloseFence l && inBlock then
      if cur.isEmpty then extractLoop false cur rest
      else joinLines cur :: extractLoop false cur rest
    else if inBlock then extractLoop true (cur ++ [l]) rest
    else extractLoop inBlock cur rest

/-- Model of `_extract_code_blocks`: split on newlines, run the fence state
machine, return the blocks in source order. -/
def extractCodeBlocks (text : String) : List String :=
  extractLoop false [] (splitLines text)

/-! ## Visualization-routing heuristic (`_needs_visualization`) -/

/-- Python substring containment `pat in s` on character lists. -/
def containsSub (pat : List Char) : List Char → Bool
  | [] => pat.isEmpty
  | c :: rest => pat.isPrefixOf (c :: rest) || containsSub pat rest

/-- Python `query.lower()` (ASCII lowering, as in the source's keyword checks). -/
def lowerString (s : String) : String := ⟨s.data.map Char.toLower⟩

/-- The `viz_keywords` list of `_needs_visualization`. -/
def vizKeywords : List String :=
  ["plot", "graph", "chart", "visualize", "show", "display", "trend",
   "distribution", "compare", "correlation"]

/-- Model of `CodeInterpreterAgent._needs_visualization` (the `results` parameter
is ignored by the source, so it is omitted): some plotting-intent keyword
occurs in the lowercased query. -/
def needsVisualization (query : String) : Bool :=
  vizKeywords.any (fun kw => containsSub kw.data (lowerString query).data)

/-! ## `CodeInterpreterAgent.process`

External collaborators are abstracted: the outcome of parsing each input
file (`pd.read_csv`), the outcome of building the prompt
(`_build_prompt`, line 64, outside the `try`), the model call
(`self.model.generate_content(prompt).text`), and the semantics of each
extracted script.  `Except.error` at the top level models an exception
escaping `process`. -/

/-- Envelope returned by `CodeInterpreterAgent.process` (the `AgentResult`
fields the claims are about; `data["results"]` is `results`). -/
structure CIResult where
  success : Bool
  message : String
  agent_name : String
  next_agent : Option String
  results : Option (List ExecResult)
  deriving Repr, DecidableEq

/-- The file-loading loop at the top of `process`: load each CSV into
`self.dataframes` in order; the first parse failure returns a failure
envelope immediately, leaving the already-loaded tables in place. -/
def loadFiles : List (String × Except String DataFrame) → Registry →
    Registry ⊕ (String × Registry)
  | [], st => .inl st
  | (name, .ok d) :: rest, st => loadFiles rest (dictSet st name d)
  | (name, .error e) :: _, st =>
    .inr (s!"Error loading CSV file {name}: {e}", st)

/-- The script-execution loop of `process`: run every extracted block in
order, threading the Table Registry. -/
def runBlocks (sem : String → Script) :
    List String → Registry → List ExecResult × Registry
  | [], st => ([], st)
  | c :: rest, st =>
    let p := executeCode c (sem c) st
    let q := runBlocks sem rest p.2
    (p.1 :: q.1, q.2)

/-- Model of `CodeInterpreterAgent.process`. -/
def ciProcess (query : String)
    (files : List (String × Except String DataFrame))
    (buildPrompt : Except String String)
    (modelCall : String → Except String String)
    (sem : String → Script) (st : Registry) :
    Except String (CIResult × Registry) :=
  match loadFiles files st with
  | .inr (msg, st') =>
    .ok ({ success := false, message := msg, agent_name := "CodeInterpreter",
           next_agent := none, results := none }, st')
  | .inl st1 =>
    match buildPrompt with
    | .error e => .error e
    | .ok prompt =>
      match modelCall prompt with
      | .error e =>
        .ok ({ success := false,
               message := s!"Error during code interpretation: {e}",
               agent_name := "CodeInterpreter", next_agent := none,
               results := none }, st1)
      | .ok responseText =>
        let blocks := extractCodeBlocks responseText
        if blocks.isEmpty then
          .ok ({ success := true,
                 message := "Analysis completed without code execution",
                 agent_name := "CodeInterpreter", next_agent := none,
                 results := none }, st1)
        else
          let p := runBlocks sem blocks st1
          let nv := needsVisualization query
          .ok ({ success := true,
                 message := "Code execution completed successfully",
                 agent_name := "CodeInterpreter",
                 next_agent := some (if nv then "VisualizationAgent"
                   else "AnswerSynthesiser"),
                 results := some p.1 }, p.2)

theorem runBlocks_length (sem : String → Script) (bs : List String)
    (st : Registry) : (runBlocks sem bs st).1.length = bs.length := by
  induction bs generalizing st with
  | nil => rfl
  | cons c rest ih => simp [runBlocks, ih]

theorem runBlocks_codes (sem : String → Script) (bs : List String)
    (st : Registry) :
    (runBlocks sem bs st).1.map (fun r => r.code) = bs := by
  induction bs generalizing st with
  | nil => rfl
  | cons c rest ih => simp [runBlocks, ih, executeCode]
                      cases sem c (initGlobals st) <;> rfl

theorem runBlocks_get_fail (sem : String → Script) (bs : List String)
    (st : Registry) (i : Nat) (hi : i < bs.length)
    (hfail : ∀ g, ∃ m e, sem (bs.get ⟨i, hi⟩) g = ExecOutcome.exn m e)
    (hlen : i < (runBlocks sem bs st).1.length) :
    ((runBlocks sem bs st).1.get ⟨i, hlen⟩).success = false := by
  induction bs generalizing st i with
  | nil => exact absurd hi (by simp)
  | cons c rest ih =>
    cases i with
    | zero =>
      obtain ⟨m, e, hme⟩ := hfail (initGlobals st)
      simp only [List.get] at hme ⊢
      simp [runBlocks, executeCode, hme]
    | succ j =>
      have hj : j < rest.length := by simpa using hi
      have hfail' : ∀ g, ∃ m e,
          sem (rest.get ⟨j, hj⟩) g = ExecOutcome.exn m e := hfail
      have hlen' : j < (runBlocks sem rest
          (executeCode c (sem c) st).2).1.length := by
        rw [runBlocks_length]
        exact hj
      have := ih (executeCode c (sem c) st).2 j hj hfail' hlen'
      simpa [runBlocks] using this

theorem loadFiles_ok (pre : List (String × DataFrame)) (st : Registry) :
    loadFiles (pre.map (fun q => (q.1, Except.ok q.2))) st =
      .inl (pre.foldl (fun r q => dictSet r q.1 q.2) st) := by
  induction pre generalizing st with
  | nil => rfl
  | cons q rest ih => simp [loadFiles, ih]

theorem loadFiles_append_error (pre : List (String × DataFrame))
    (name err : String) (rest : List (String × Except String DataFrame))
    (st : Registry) :
    loadFiles (pre.map (fun q => (q.1, Except.ok q.2)) ++
        (name, Except.error err) :: rest) st =
      .inr (s!"Error loading CSV file {name}: {err}",
        pre.foldl (fun r q => dictSet r q.1 q.2) st) := by
  induction pre generalizing st with
  | nil => rfl
  | cons q tail ih => simp [loadFiles, ih]

/-! ## `PresentationAgent.process` and `AnswerSynthesiserAgent.process` -/

/-- Envelope returned by the Reporting and Synthesis workers (payload
fields irrelevant to the claims are omitted). -/
structure WorkerResult where
  success : Bool
  message : String
  agent_name : String
  next_agent : Option String
  deriving Repr, DecidableEq

/-- Model of `PresentationAgent.process`: the prompt is built at line 33, before
the `try` block starting at line 35, so a prompt-building failure
escapes; a model-call failure is caught and converted. -/
def presentationProcess (buildPrompt : Except String String)
    (modelCall : String → Except String String) :
    Except String WorkerResult :=
  match buildPrompt with
  | .error e => .error e
  | .ok prompt =>
    match modelCall prompt with
    | .error e =>
      .ok { success := false,
            message := s!"Error creating presentation: {e}",
            agent_name := "PresentationAgent", next_agent := none }
    | .ok _ =>
      .ok { success := true, message := "Presentation generated successfully",
            agent_name := "PresentationAgent", next_agent := none }

/-- Model of `AnswerSynthesiserAgent.process`: here the prompt is built inside the
`try` (line 113), so both prompt-building and model-call failures are
caught and converted. -/
def synthesiserProcess (buildPrompt : Except String String)
    (modelCall : String → Except String String) :
    Except String WorkerResult :=
  match buildPrompt with
  | .error e =>
    .ok { success := false, message := s!"Error synthesizing answer: {e}",
          agent_name := "AnswerSynthesiser", next_agent := none }
  | .ok prompt =>
    match modelCall prompt with
    | .error e =>
      .ok { success := false, message := s!"Error synthesizing answer: {e}",
            agent_name := "AnswerSynthesiser", next_agent := none }
    | .ok _ =>
      .ok { success := true, message := "Answer synthesized successfully",
            agent_name := "AnswerSynthesiser", next_agent := none }

/-! ## Base64 (the `base64.b64encode(...)` / decode pair)

Bytes are naturals below 256; the standard alphabet with `=` padding. -/

def base64Alphabet : List Char :=
  "ABCDEFGHIJKLMNOPQRSTUVWXYZabcdefghijklmnopqrstuvwxyz0123456789+/".data

def sextetChar (n : Nat) : Char := base64Alphabet.getD n '='

def sextetVal (c : Char) : Option Nat := base64Alphabet.findIdx? (· == c)

def base64EncodeChunks : List Nat → List Char
  | [] => []
  | [a] => [sextetChar (a / 4), sextetChar (a % 4 * 16), '=', '=']
  | [a, b] => [sextetChar (a / 4), sextetChar (a % 4 * 16 + b / 16),
               sextetChar (b % 16 * 4), '=']
  | a :: b :: c :: rest =>
    sextetChar (a / 4) :: sextetChar (a % 4 * 16 + b / 16) ::
    sextetChar (b % 16 * 4 + c / 64) :: sextetChar (c % 64) ::
    base64EncodeChunks rest

def base64DecodeChunks : List Char → Option (List Nat)
  | [] => some []
  | c1 :: c2 :: c3 :: c4 :: rest =>
    match sextetVal c1, sextetVal c2 with
    | some a, some b =>
      if c3 = '=' then
        if c4 = '=' ∧ rest = [] then some [a * 4 + b / 16] else none
      else
        match sextetVal c3 with
        | some c =>
          if c4 = '=' then
            if rest = [] then some [a * 4 + b / 16, b % 16 * 16 + c / 4]
            else none
          else
            match sextetVal c4 with
            | some d =>
              (base64DecodeChunks rest).map
                (fun r => (a * 4 + b / 16) :: (b % 16 * 16 + c / 4) ::
                  (c % 4 * 64 + d) :: r)
            | none => none
        | none => none
    | _, _ => none
  | _ => none

def base64Encode (bytes : List Nat) : String := ⟨base64EncodeChunks bytes⟩

def base64Decode (s : String) : Option (List Nat) := base64DecodeChunks s.data

theorem sextetVal_sextetChar_fin :
    ∀ n : Fin 64, sextetVal (sextetChar n.val) = some n.val := by decide

theorem sextetVal_sextetChar (n : Nat) (h : n < 64) :
    sextetVal (sextetChar n) = some n := sextetVal_sextetChar_fin ⟨n, h⟩

theorem sextetChar_ne_pad_fin : ∀ n : Fin 64, sextetChar n.val ≠ '=' := by
  decide

theorem sextetChar_ne_pad (n : Nat) (h : n < 64) : sextetChar n ≠ '=' :=
  sextetChar_ne_pad_fin ⟨n, h⟩

theorem base64_roundtrip :
    ∀ bytes : List Nat, (∀ b ∈ bytes, b < 256) →
      base64DecodeChunks (base64EncodeChunks bytes) = some bytes
  | [], _ => rfl
  | [a], h => by
    have ha : a < 256 := h a (by simp)
    have h1 : a / 4 < 64 := by omega
    have h2 : a % 4 * 16 < 64 := by omega
    simp only [base64EncodeChunks, base64DecodeChunks,
      sextetVal_sextetChar _ h1, sextetVal_sextetChar _ h2, if_pos rfl,
      and_self, if_true]
    congr 1
    simp
    omega
  | [a, b], h => by
    have ha : a < 256 := h a (by simp)
    have hb : b < 256 := h b (by simp)
    have h1 : a / 4 < 64 := by omega
    have h2 : a % 4 * 16 + b / 16 < 64 := by omega
    have h3 : b % 16 * 4 < 64 := by omega
    simp only [base64EncodeChunks, base64DecodeChunks,
      sextetVal_sextetChar _ h1, sextetVal_sextetChar _ h2,
      sextetVal_sextetChar _ h3, if_neg (sextetChar_ne_pad _ h3), if_pos rfl,
      if_true]
    congr 1
    simp
    constructor <;> omega
  | a :: b :: c :: rest, h => by
    have ha : a < 256 := h a (by simp)
    have hb : b < 256 := h b (by simp)
    have hc : c < 256 := h c (by simp)
    have h1 : a / 4 < 64 := by omega
    have h2 : a % 4 * 16 + b / 16 < 64 := by omega
    have h3 : b % 16 * 4 + c / 64 < 64 := by omega
    have h4 : c % 64 < 64 := by omega
    have ih := base64_roundtrip rest
      (fun x hx => h x (by simp at hx ⊢; tauto))
    simp only [base64EncodeChunks, base64DecodeChunks,
      sextetVal_sextetChar _ h1, sextetVal_sextetChar _ h2,
      sextetVal_sextetChar _ h3, sextetVal_sextetChar _ h4,
      if_neg (sextetChar_ne_pad _ h3), if_neg (sextetChar_ne_pad _ h4), ih,
      Option.map_some]
    simp
    refine ⟨by omega, by omega, by omega⟩

/-! ## The Plotting sandbox (`VisualizationAgent._create_visualization`)

The only file-system state the code touches is the single well-known path
`plot.png`; it is modelled as `Option (List Nat)`: `none` when no file
exists at the path, `some bytes` when a file with those bytes does. -/

/-- Outcome of `exec(code, exec_globals)` in the Plotting sandbox: the
state of `plot.png` afterwards, or an exception (which also leaves the
path in whatever state the script reached before raising). -/
inductive VizOutcome where
  | ok (fs : Option (List Nat))
  | exn (msg : String) (fs : Option (List Nat))

/-- A plotting script's semantics: initial path state to outcome. -/
def VizScript : Type := Option (List Nat) → VizOutcome

/-- The artifact dict built by `_create_visualization`. -/
structure VizResult where
  code : String
  success : Bool
  image_base64 : Option String
  error : Option String
  description : String
  deriving Repr, DecidableEq

/-- Model of `VisualizationAgent._create_visualization`: execute the script; if
`plot.png` exists afterwards, read it, base64-encode it into the
artifact, mark success and delete the file; otherwise record
"No plot file was created"; an exception is recorded as the error and
skips the file handling entirely (the file, if any, is not deleted). -/
def createVisualization (code : String) (sem : VizScript)
    (fs : Option (List Nat)) : VizResult × Option (List Nat) :=
  match sem fs with
  | .ok (some bytes) =>
    ({ code := code, success := true,
       image_base64 := some (base64Encode bytes), error := none,
       description := "Visualization created successfully" }, none)
  | .ok none =>
    ({ code := code, success := false, image_base64 := none,
       error := some "No plot file was created", description := "" }, none)
  | .exn msg fs' =>
    ({ code := code, success := false, image_base64 := none,
       error := some msg, description := "" }, fs')

/-- The script loop of `VisualizationAgent.process`: run every block,
appending only the artifacts whose `success` flag is set
(`if viz_result["success"]: visualizations.append(viz_result)`). -/
def vizLoop (sem : String → VizScript) :
    List String → Option (List Nat) → List VizResult × Option (List Nat)
  | [], fs => ([], fs)
  | c :: rest, fs =>
    let p := createVisualization c (sem c) fs
    let q := vizLoop sem rest p.2
    (if p.1.success then p.1 :: q.1 else q.1, q.2)

/-- Modelled from the spec: the full ordered list of per-script artifact
results, successes and failures alike, which the source never
materializes (failed artifacts are dropped on the floor).  Used only to
state what the envelope's `visualizations` list contains. -/
def vizResultsAll (sem : String → VizScript) :
    List String → Option (List Nat) → List VizResult × Option (List Nat)
  | [], fs => ([], fs)
  | c :: rest, fs =>
    let p := createVisualization c (sem c) fs
    let q := vizResultsAll sem rest p.2
    (p.1 :: q.1, q.2)

theorem vizLoop_eq_filter (sem : String → VizScript) (blocks : List String)
    (fs : Option (List Nat)) :
    vizLoop sem blocks fs =
      ((vizResultsAll sem blocks fs).1.filter (fun r => r.success),
       (vizResultsAll sem blocks fs).2) := by
  induction blocks generalizing fs with
  | nil => rfl
  | cons c rest ih =>
    simp only [vizLoop, vizResultsAll, ih, List.filter_cons]

/-- Envelope returned by `VisualizationAgent.process`. -/
structure VizEnvelope where
  success : Bool
  message : String
  agent_name : String
  next_agent : Option String
  visualizations : List VizResult
  visualization_count : Nat
  deriving Repr, DecidableEq

/-- Model of `VisualizationAgent.process`: the prompt is built at line 45, before
the `try` block starting at line 47, so a prompt-building failure
escapes; a model-call failure is caught.  With at least one extracted
block, only the successful artifacts are kept and counted. -/
def vizProcess (buildPrompt : Except String String)
    (modelCall : String → Except String String)
    (sem : String → VizScript) (fs : Option (List Nat)) :
    Except String (VizEnvelope × Option (List Nat)) :=
  match buildPrompt with
  | .error e => .error e
  | .ok prompt =>
    match modelCall prompt with
    | .error e =>
      .ok ({ success := false, message := s!"Error creating visualizations: {e}",
             agent_name := "VisualizationAgent", next_agent := none,
             visualizations := [], visualization_count := 0 }, fs)
    | .ok responseText =>
      let blocks := extractCodeBlocks responseText
      if blocks.isEmpty then
        .ok ({ success := true, message := "No visualizations needed",
               agent_name := "VisualizationAgent",
               next_agent := some "AnswerSynthesiser",
               visualizations := [], visualization_count := 0 }, fs)
      else
        let p := vizLoop sem blocks fs
        .ok ({ success := true,
               message := s!"Created {p.1.length} visualizations",
               agent_name := "VisualizationAgent",
               next_agent := some "AnswerSynthesiser",
               visualizations := p.1,
               visualization_count := p.1.length }, p.2)

/-! ## Well-formed fenced spans

A completion text "contains exactly N well-formed fenced spans" when its
line list decomposes into interleaved prose (lines that do not open a
fence) and spans (an opening line, body lines containing no fence
marker, and the next closing line), possibly ending in one span left
open at end-of-input; N is the number of closed spans.  The
decomposition is explicit data (`Chunk`), checked by `chunksOK` and
rendered back to the line list by `renderChunks`; `chunkSpans` lists the
closed spans' bodies in source order. -/

inductive Chunk where
  | prose (l : String)
  | span (o : String) (body : List String) (c : String)
  | openTail (o : String) (body : List String)
  deriving Repr, DecidableEq

def renderChunks : List Chunk → List String
  | [] => []
  | .prose l :: rest => l :: renderChunks rest
  | .span o body c :: rest => o :: (body ++ c :: renderChunks rest)
  | .openTail o body :: _ => o :: body

/-- No body line of a span may open or close a fence. -/
def fenceFree (body : List String) : Bool :=
  body.all (fun b => !isOpenFence b && !isCloseFence b)

/-- Side conditions for a well-formed decomposition: prose never opens a
fence, a span has an opening line, a marker-free body and a closing
line, and an unterminated open span can only stand at end-of-input. -/
def chunksOK : List Chunk → Bool
  | [] => true
  | .prose l :: rest => !isOpenFence l && chunksOK rest
  | .span o body c :: rest =>
    isOpenFence o && fenceFree body && isCloseFence c && chunksOK rest
  | .openTail o body :: rest =>
    isOpenFence o && fenceFree body && rest.isEmpty

/-- The bodies of the closed spans, in source order. -/
def chunkSpans : List Chunk → List (List String)
  | [] => []
  | .prose _ :: rest => chunkSpans rest
  | .span _ body _ :: rest => body :: chunkSpans rest
  | .openTail _ _ :: rest => chunkSpans rest

theorem isOpenFence_of_isCloseFence (c : String) (h : isCloseFence c = true) :
    isOpenFence c = false := by
  have hs : pyStrip c.data = "```".data := by
    simpa [isCloseFence] using h
  simp [isOpenFence, hs]

theorem extractLoop_inBlock_end (body : List String) (acc : List String)
    (h : fenceFree body = true) : extractLoop true acc body = [] := by
  induction body generalizing acc with
  | nil => rfl
  | cons b rest ih =>
    simp only [fenceFree, List.all_cons, Bool.and_eq_true,
      Bool.not_eq_true'] at h
    simp only [extractLoop, h.1.1, h.1.2, Bool.false_eq_true, if_false,
      Bool.false_and, Bool.and_true, if_true]
    exact ih (acc ++ [b]) h.2

theorem extractLoop_inBlock (body : List String) (acc : List String)
    (c : String) (tail : List String) (hb : fenceFree body = true)
    (hc : isCloseFence c = true) :
    extractLoop true acc (body ++ c :: tail) =
      if (acc ++ body).isEmpty then extractLoop false (acc ++ body) tail
      else joinLines (acc ++ body) ::
        extractLoop false (acc ++ body) tail := by
  induction body generalizing acc with
  | nil =>
    simp only [List.nil_append, List.append_nil, extractLoop,
      isOpenFence_of_isCloseFence c hc, Bool.false_eq_true, if_false, hc,
      Bool.true_and, if_true]
  | cons b rest ih =>
    simp only [fenceFree, List.all_cons, Bool.and_eq_true,
      Bool.not_eq_true'] at hb
    simp only [List.cons_append, extractLoop, hb.1.1, hb.1.2,
      Bool.false_eq_true, if_false, Bool.false_and, Bool.and_true, if_true,
      List.append_eq]
    rw [ih (acc ++ [b]) hb.2]
    simp

theorem extractLoop_chunks (cs : List Chunk) (cur : List String)
    (h : chunksOK cs = true) :
    extractLoop false cur (renderChunks cs) =
      ((chunkSpans cs).filter (fun b => !b.isEmpty)).map joinLines := by
  induction cs generalizing cur with
  | nil => rfl
  | cons ch rest ih =>
    cases ch with
    | prose l =>
      simp only [chunksOK, Bool.and_eq_true, Bool.not_eq_true'] at h
      simp only [renderChunks, extractLoop, h.1, Bool.false_eq_true, if_false,
        Bool.and_false, Bool.false_and, chunkSpans]
      exact ih cur h.2
    | span o body c =>
      simp only [chunksOK, Bool.and_eq_true] at h
      obtain ⟨⟨⟨ho, hb⟩, hc⟩, hrest⟩ := h
      simp only [renderChunks, extractLoop, ho, if_true, chunkSpans]
      rw [extractLoop_inBlock body [] c (renderChunks rest) hb hc]
      simp only [List.nil_append, List.filter_cons]
      by_cases he : body.isEmpty
      · simp only [he, if_true, Bool.not_true, Bool.false_eq_true, if_false]
        exact ih body hrest
      · simp only [he, Bool.not_false, if_false, if_true, List.map_cons]
        rw [ih body hrest]
        simp [he]
    | openTail o body =>
      simp only [chunksOK, Bool.and_eq_true] at h
      obtain ⟨⟨ho, hb⟩, hrest⟩ := h
      simp only [renderChunks, extractLoop, ho, if_true, chunkSpans]
      rw [extractLoop_inBlock_end body [] hb]
      have : rest = [] := by
        cases rest with
        | nil => rfl
        | cons x xs => simp [List.isEmpty] at hrest
      subst this
      rfl

/-! ## Concrete fixtures used by witnesses and counterexamples -/

def dfT : DataFrame := ⟨2, 2, ["a", "b"], [[1, 2], [3, 4]]⟩

def regT : Registry := [("t", dfT)]

/-- Semantics of a script that only adds the binding `x = 5`. -/
def semAddX : Script := fun g => .ok (g ++ [("x", PyVal.int 5)]) ""

/-- A model call that always succeeds with an empty completion. -/
def mc0 : String → Except String String := fun _ => .ok ""

/-- Per-script semantics where every script raises. -/
def sem0 : String → Script := fun _ _ => ExecOutcome.exn "boom" ""

/-! ## Claim theorems -/

/-- C1, counterexample.  The claim says exactly the bindings *newly
introduced* by the script (excluding underscore names and the initial
binding set) are harvested.  Here the registry — hence the initial
binding set — already binds `"t"`, the script only introduces `"x"`,
yet the harvested map contains `"t"` as well: the harvesting loop walks
every binding of `exec_globals` and only filters out underscore names
and the literal names `pd`/`np`, not the initial tables. -/
theorem harvest_includes_initial_binding :
    alookup regT "t" = some dfT ∧
    (executeCode "x = 5" semAddX regT).1.vars.map Prod.fst = ["t", "x"] ∧
    (executeCode "x = 5" semAddX regT).1.vars.map Prod.fst ≠ ["x"] := by
  decide

/-- C1, amended: on success every binding of the final globals except
underscore-prefixed names and the library handles `pd`/`np` — including
names from the initial binding set, such as previously registered
tables — is harvested, classified in priority order: simple values by
value; a DataFrame by shape descriptor, also written back into the Table
Registry under its binding name, where the next script's initial binding
set sees it; an ndarray by shape descriptor only; every other value is
absent from the harvested map. -/
theorem executeCode_harvest_spec (code : String) (sem : Script)
    (st : Registry) (g : List (String × PyVal)) (out : String)
    (hst : (st.map Prod.fst).Nodup) (hg : (g.map Prod.fst).Nodup)
    (hrun : sem (initGlobals st) = .ok g out) :
    (executeCode code sem st).1.success = true ∧
    (executeCode code sem st).1.output = out ∧
    (∀ k, skipName k = true →
      alookup (executeCode code sem st).1.vars k = none) ∧
    (∀ k, alookup g k = none →
      alookup (executeCode code sem st).1.vars k = none) ∧
    (∀ k v, skipName k = false → alookup g k = some v → isSimpleVal v = true →
      alookup (executeCode code sem st).1.vars k = some (VarDesc.value v)) ∧
    (∀ k d, skipName k = false → alookup g k = some (PyVal.df d) →
      alookup (executeCode code sem st).1.vars k =
        some (VarDesc.dfShape d.nrows d.ncols) ∧
      alookup (executeCode code sem st).2 k = some d ∧
      alookup (initGlobals (executeCode code sem st).2) k =
        some (PyVal.df d)) ∧
    (∀ k s dat, skipName k = false → alookup g k = some (PyVal.arr s dat) →
      alookup (executeCode code sem st).1.vars k =
        some (VarDesc.arrShape s)) ∧
    (∀ k t, skipName k = false → alookup g k = some (PyVal.other t) →
      alookup (executeCode code sem st).1.vars k = none) := by
  have hvars : (executeCode code sem st).1.vars = (harvestLoop g st).1 := by
    simp [executeCode, hrun]
  have hreg : (executeCode code sem st).2 = (harvestLoop g st).2 := by
    simp [executeCode, hrun]
  refine ⟨by simp [executeCode, hrun], by simp [executeCode, hrun],
    ?_, ?_, ?_, ?_, ?_, ?_⟩
  · intro k hskip
    rw [hvars, alookup_harvest_vars g st k hg]
    cases h : alookup g k <;> simp [hskip]
  · intro k hnone
    rw [hvars, alookup_harvest_vars g st k hg, hnone]
  · intro k v hskip hlook hsimple
    rw [hvars, alookup_harvest_vars g st k hg, hlook]
    simp only [hskip, Bool.false_eq_true, if_false]
    cases v with
    | int n => rfl
    | str s => rfl
    | bool b => rfl
    | pylist xs => rfl
    | pydict m => rfl
    | df d => simp [isSimpleVal] at hsimple
    | arr s dat => simp [isSimpleVal] at hsimple
    | other t => simp [isSimpleVal] at hsimple
  · intro k d hskip hlook
    have hv : alookup (executeCode code sem st).1.vars k =
        some (VarDesc.dfShape d.nrows d.ncols) := by
      rw [hvars, alookup_harvest_vars g st k hg, hlook]
      simp [hskip, harvestDesc]
    have hr : alookup (executeCode code sem st).2 k = some d := by
      rw [hreg, alookup_harvest_reg g st k hg, hlook]
      simp [hskip]
    refine ⟨hv, hr, ?_⟩
    have hnd : (((executeCode code sem st).2).map Prod.fst).Nodup := by
      rw [hreg]
      exact nodup_keys_harvest_reg g st hst
    rw [alookup_initGlobals _ k hnd (skipName_false k hskip).1
      (skipName_false k hskip).2, hr]
    rfl
  · intro k s dat hskip hlook
    rw [hvars, alookup_harvest_vars g st k hg, hlook]
    simp [hskip, harvestDesc]
  · intro k t hskip hlook
    rw [hvars, alookup_harvest_vars g st k hg, hlook]
    simp [hskip, harvestDesc]

/-- C1, witness for the amended theorem: the concrete run of
`harvest_includes_initial_binding` satisfies every hypothesis, and the
characterization applies: `"x"` is captured by value, `"t"` is written
back and visible to the next script. -/
theorem executeCode_harvest_spec_witness :
    (executeCode "x = 5" semAddX regT).1.success = true ∧
    alookup (executeCode "x = 5" semAddX regT).1.vars "x" =
      some (VarDesc.value (PyVal.int 5)) ∧
    alookup (executeCode "x = 5" semAddX regT).2 "t" = some dfT ∧
    alookup (initGlobals (executeCode "x = 5" semAddX regT).2) "t" =
      some (PyVal.df dfT) := by
  have h := executeCode_harvest_spec "x = 5" semAddX regT
    (initGlobals regT ++ [("x", PyVal.int 5)]) ""
    (by decide) (by decide) rfl
  refine ⟨h.1, ?_, ?_, ?_⟩
  · exact h.2.2.2.2.1 "x" (PyVal.int 5) (by decide) (by decide) (by decide)
  · exact (h.2.2.2.2.2.1 "t" dfT (by decide) (by decide)).2.1
  · exact (h.2.2.2.2.2.1 "t" dfT (by decide) (by decide)).2.2

/-- C2: when the script raises, the `ScriptResult` is marked failed with
the exception text as error and the captured stderr as output, the
harvested-variables map is empty, and the Table Registry is completely
unchanged. -/
theorem executeCode_failure_spec (code : String) (sem : Script)
    (st : Registry) (msg errout : String)
    (h : sem (initGlobals st) = .exn msg errout) :
    executeCode code sem st =
      ({ code := code, success := false, output := errout,
         error := some msg, vars := [] }, st) := by
  simp [executeCode, h]

/-- C2, witness: a concrete failing script. -/
theorem executeCode_failure_spec_witness :
    executeCode "1/0" (fun _ => ExecOutcome.exn "division by zero" "") regT =
      ({ code := "1/0", success := false, output := "",
         error := some "division by zero", vars := [] }, regT) :=
  executeCode_failure_spec "1/0" (fun _ => ExecOutcome.exn "division by zero" "")
    regT "division by zero" "" rfl

/-- C9: the Sandbox is deterministic — executing the same script
semantics against equal binding sets (equal registries, hence equal
initial globals) produces identical results and identical updated
registries. -/
theorem executeCode_deterministic (code : String) (sem : Script)
    (st1 st2 : Registry) (h : st1 = st2) :
    (executeCode code sem st1).1.vars = (executeCode code sem st2).1.vars ∧
    (executeCode code sem st1).1.output =
      (executeCode code sem st2).1.output ∧
    executeCode code sem st1 = executeCode code sem st2 := by
  subst h
  exact ⟨rfl, rfl, rfl⟩

/-- C9, witness. -/
theorem executeCode_deterministic_witness :
    (executeCode "x = 5" semAddX regT).1.vars =
      (executeCode "x = 5" semAddX regT).1.vars ∧
    (executeCode "x = 5" semAddX regT).1.output =
      (executeCode "x = 5" semAddX regT).1.output ∧
    executeCode "x = 5" semAddX regT = executeCode "x = 5" semAddX regT :=
  executeCode_deterministic "x = 5" semAddX regT regT rfl

/-- C3, counterexample.  The claim says every failure while building the
model prompt is caught inside `process`.  In
`CodeInterpreterAgent.process` the prompt is built at line 64, *outside*
the `try` that begins at line 66, so a prompt-building failure escapes
`process` (modelled by the `Except.error` result). -/
theorem ciProcess_raises_on_prompt_failure :
    ciProcess "q" [] (Except.error "prompt construction failed") mc0 sem0 [] =
      Except.error "prompt construction failed" := rfl

/-- C3, amended: once the prompt has been built, no Worker raises past
`process` — a model-call failure is caught and converted into a
`success=false` envelope in all three Workers; but a prompt-building
failure is caught only in the Synthesis worker (whose `_build_prompt`
call sits inside the `try`), while in the Analysis and Reporting workers
prompt building happens before the `try` and its failure propagates out
of `process`. -/
theorem worker_boundary_spec (bp : Except String String)
    (mc : String → Except String String) (query : String)
    (files : List (String × Except String DataFrame))
    (sem : String → Script) (st : Registry) (p : String)
    (hbp : bp = .ok p) :
    ((ciProcess query files bp mc sem st).isOk = true) ∧
    ((presentationProcess bp mc).isOk = true) ∧
    (∀ bp2 : Except String String, (synthesiserProcess bp2 mc).isOk = true) ∧
    (∀ e, mc p = .error e →
      (∀ env st', ciProcess query files bp mc sem st = .ok (env, st') →
        env.success = false) ∧
      (∀ env, presentationProcess bp mc = .ok env → env.success = false) ∧
      (∀ env, synthesiserProcess bp mc = .ok env → env.success = false)) := by
  subst hbp
  refine ⟨?_, ?_, ?_, ?_⟩
  · rw [ciProcess]
    cases loadFiles files st with
    | inr pr => rfl
    | inl st1 =>
      cases hm : mc p with
      | error e => simp [hm, Except.isOk, Except.toBool]
      | ok text =>
        cases hb : (extractCodeBlocks text).isEmpty <;>
          simp [hm, hb, Except.isOk, Except.toBool]
  · rw [presentationProcess]
    cases hm : mc p with
    | error e => simp [hm, Except.isOk, Except.toBool]
    | ok text => simp [hm, Except.isOk, Except.toBool]
  · intro bp2
    cases bp2 with
    | error e => rfl
    | ok p2 =>
      cases hm : mc p2 with
      | error e => simp [synthesiserProcess, hm, Except.isOk, Except.toBool]
      | ok t => simp [synthesiserProcess, hm, Except.isOk, Except.toBool]
  · intro e hm
    refine ⟨?_, ?_, ?_⟩
    · intro env st' henv
      cases hl : loadFiles files st with
      | inr pr =>
        rw [ciProcess] at henv
        rw [hl] at henv
        simp at henv
        rw [← henv.1]
      | inl st1 =>
        rw [ciProcess] at henv
        rw [hl] at henv
        simp [hm] at henv
        rw [← henv.1]
    · intro env henv
      rw [presentationProcess] at henv
      simp [hm] at henv
      rw [← henv]
    · intro env henv
      rw [synthesiserProcess] at henv
      simp [hm] at henv
      rw [← henv]

/-- C3, witness for the amended theorem: with a built prompt and a
failing model call, Analysis and Reporting return `success=false`
envelopes rather than raising, and Synthesis never raises even when
prompt building itself fails. -/
theorem worker_boundary_spec_witness :
    ((ciProcess "q" [] (.ok "p") (fun _ => Except.error "quota")
      sem0 []).isOk = true) ∧
    ((presentationProcess (.ok "p") (fun _ => Except.error "quota")).isOk =
      true) ∧
    (synthesiserProcess (.error "ctx") (fun _ => Except.error "quota")).isOk =
      true ∧
    (∀ env st', ciProcess "q" [] (.ok "p") (fun _ => Except.error "quota")
      sem0 [] = .ok (env, st') → env.success = false) := by
  have h := worker_boundary_spec (.ok "p") (fun _ => Except.error "quota")
    "q" [] sem0 [] "p" rfl
  exact ⟨h.1, h.2.1, h.2.2.1 (.error "ctx"),
    (h.2.2.2 "quota" rfl).1⟩

/-- C4, counterexample.  The claim says a parse failure leaves the Table
Registry with *no* table from the input set.  With files `a` (parses)
then `b` (fails), the loop has already loaded `a` into the registry
before hitting `b`, and the failure envelope is returned with `a`'s
table still registered: the load is partial, not atomic. -/
theorem ciProcess_keeps_earlier_tables :
    ciProcess "q" [("a", Except.ok dfT), ("b", Except.error "bad file")]
        (Except.ok "") mc0 sem0 [] =
      Except.ok ({ success := false,
                   message := "Error loading CSV file b: bad file",
                   agent_name := "CodeInterpreter", next_agent := none,
                   results := none }, [("a", dfT)]) ∧
    alookup [("a", dfT)] "a" = some dfT := by
  constructor
  · rfl
  · decide

/-- C4, amended: when some input file fails to parse, the invocation
returns `success=false` with the ingestion error message and executes
nothing, the failing file and everything after it are not loaded, but
every file parsed *before* the first failure remains loaded in the
Table Registry. -/
theorem ciProcess_load_failure_spec (query : String)
    (pre : List (String × DataFrame)) (name err : String)
    (rest : List (String × Except String DataFrame))
    (bp : Except String String) (mc : String → Except String String)
    (sem : String → Script) (st : Registry) :
    ciProcess query
        (pre.map (fun q => (q.1, Except.ok q.2)) ++
          (name, Except.error err) :: rest) bp mc sem st =
      Except.ok ({ success := false,
                   message := s!"Error loading CSV file {name}: {err}",
                   agent_name := "CodeInterpreter", next_agent := none,
                   results := none },
        pre.foldl (fun r q => dictSet r q.1 q.2) st) := by
  rw [ciProcess, loadFiles_append_error]

/-- C4, witness for the amended theorem. -/
theorem ciProcess_load_failure_spec_witness :
    ciProcess "q" [("a", Except.ok dfT), ("b", Except.error "bad file"),
        ("c", Except.ok dfT)] (Except.ok "") mc0 sem0 [] =
      Except.ok ({ success := false,
                   message := "Error loading CSV file b: bad file",
                   agent_name := "CodeInterpreter", next_agent := none,
                   results := none }, [("a", dfT)]) := by
  have h := ciProcess_load_failure_spec "q" [("a", dfT)] "b" "bad file"
    [("c", Except.ok dfT)] (Except.ok "") mc0 sem0 []
  exact h

/-- C6: when scripts were extracted and one of them raises, every
sibling script is still executed (the results list mirrors the block
list, in order), the failing script's `ScriptResult` has
`success=false`, and the Analysis envelope still reports
`success=true`. -/
theorem ciProcess_script_error_isolation (query : String)
    (files : List (String × Except String DataFrame))
    (mc : String → Except String String) (sem : String → Script)
    (st st1 : Registry) (p text : String)
    (hload : loadFiles files st = .inl st1)
    (hmc : mc p = .ok text)
    (hne : (extractCodeBlocks text).isEmpty = false)
    (i : Nat) (hi : i < (extractCodeBlocks text).length)
    (hlen : i < (runBlocks sem (extractCodeBlocks text) st1).1.length)
    (hfail : ∀ g, ∃ m e,
      sem ((extractCodeBlocks text).get ⟨i, hi⟩) g = ExecOutcome.exn m e) :
    ciProcess query files (.ok p) mc sem st =
      Except.ok ({ success := true,
                   message := "Code execution completed successfully",
                   agent_name := "CodeInterpreter",
                   next_agent := some (if needsVisualization query
                     then "VisualizationAgent" else "AnswerSynthesiser"),
                   results :=
                     some (runBlocks sem (extractCodeBlocks text) st1).1 },
        (runBlocks sem (extractCodeBlocks text) st1).2) ∧
    (runBlocks sem (extractCodeBlocks text) st1).1.map (fun r => r.code) =
      extractCodeBlocks text ∧
    ((runBlocks sem (extractCodeBlocks text) st1).1.get ⟨i, hlen⟩).success =
      false := by
  refine ⟨?_, runBlocks_codes sem _ st1, runBlocks_get_fail sem _ st1 i hi hfail hlen⟩
  rw [ciProcess, hload]
  simp [hmc, hne]

/-- C6, witness: a single script that raises — the batch still runs, the
envelope succeeds, the per-script flag is false. -/
theorem ciProcess_script_error_isolation_witness :
    (ciProcess "q" [] (.ok "p") (fun _ => Except.ok "```python\n1/0\n```")
        sem0 []).map
      (fun r => (r.1.success,
        r.1.results.map (fun rs => rs.map (fun x => (x.code, x.success))))) =
      Except.ok (true, some [("1/0", false)]) := by
  have h := ciProcess_script_error_isolation "q" []
    (fun _ => Except.ok "```python\n1/0\n```") sem0 [] [] "p"
    "```python\n1/0\n```" rfl rfl (by decide) 0 (by decide) (by decide)
    (fun g => ⟨"boom", "", rfl⟩)
  rw [h.1]
  rfl

/-- C8: with at least one extracted script, the declared next worker is
the Plotting worker exactly when some keyword of the code's
`viz_keywords` list occurs as a substring of the lowercased query, and
is the Synthesis worker otherwise. -/
theorem ciProcess_routing_spec (query : String)
    (files : List (String × Except String DataFrame))
    (mc : String → Except String String) (sem : String → Script)
    (st st1 : Registry) (p text : String)
    (hload : loadFiles files st = .inl st1)
    (hmc : mc p = .ok text)
    (hne : (extractCodeBlocks text).isEmpty = false) :
    ∀ env st2, ciProcess query files (.ok p) mc sem st = .ok (env, st2) →
      (env.next_agent = some "VisualizationAgent" ↔
        ∃ kw ∈ vizKeywords,
          containsSub kw.data (lowerString query).data = true) ∧
      (env.next_agent = some "VisualizationAgent" ∨
        env.next_agent = some "AnswerSynthesiser") := by
  intro env st2 henv
  rw [ciProcess, hload] at henv
  simp [hmc, hne] at henv
  have hna : env.next_agent = some (if needsVisualization query
      then "VisualizationAgent" else "AnswerSynthesiser") := by
    rw [← henv.1]
  cases hnv : needsVisualization query with
  | true =>
    rw [hnv] at hna
    simp only [if_true] at hna
    refine ⟨⟨fun _ => ?_, fun _ => hna⟩, Or.inl hna⟩
    have := hnv
    rw [needsVisualization, List.any_eq_true] at this
    exact this
  | false =>
    rw [hnv] at hna
    simp only [Bool.false_eq_true, if_false] at hna
    constructor
    · constructor
      · intro h
        rw [hna] at h
        simp at h
      · intro h
        have : needsVisualization query = true := by
          rw [needsVisualization, List.any_eq_true]
          exact h
        rw [hnv] at this
        simp at this
    · exact Or.inr hna

/-- Fixtures for the C8 witness. -/
def mcPlot : String → Except String String :=
  fun _ => Except.ok "```python\n1/0\n```"

def envPlot : CIResult :=
  { success := true, message := "Code execution completed successfully",
    agent_name := "CodeInterpreter", next_agent := some "VisualizationAgent",
    results := some [{ code := "1/0", success := false, output := "",
                       error := some "boom", vars := [] }] }

/-- C8, witness: the query "plot the data" contains the keyword `plot`,
and the envelope indeed routes to the Plotting worker. -/
theorem ciProcess_routing_spec_witness :
    envPlot.next_agent = some "VisualizationAgent" ∧
    needsVisualization "plot the data" = true := by
  have heq : ciProcess "plot the data" [] (.ok "p") mcPlot sem0 [] =
      .ok (envPlot, []) := by rfl
  have h := ciProcess_routing_spec "plot the data" [] mcPlot sem0 [] [] "p"
    "```python\n1/0\n```" rfl rfl (by decide) envPlot [] heq
  exact ⟨(h.1).mpr ⟨"plot", by decide, by decide⟩, by decide⟩

/-- C5: a Plotting script that completes and leaves bytes at the
well-known path yields a `success=true` artifact whose base64 payload
decodes to exactly those bytes, and the path is deleted before the
Sandbox returns; if the script completes without creating the file, the
artifact is `success=false` with the "No plot file was created"
error. -/
theorem createVisualization_roundtrip_spec (code : String) (sem : VizScript)
    (fs : Option (List Nat)) :
    (∀ bytes, sem fs = .ok (some bytes) → (∀ b ∈ bytes, b < 256) →
      (createVisualization code sem fs).1.success = true ∧
      (createVisualization code sem fs).1.image_base64 =
        some (base64Encode bytes) ∧
      base64Decode (base64Encode bytes) = some bytes ∧
      (createVisualization code sem fs).2 = none) ∧
    (sem fs = .ok none →
      (createVisualization code sem fs).1.success = false ∧
      (createVisualization code sem fs).1.error =
        some "No plot file was created") := by
  constructor
  · intro bytes hrun hbytes
    refine ⟨?_, ?_, ?_, ?_⟩ <;>
      simp [createVisualization, hrun, base64Decode, base64Encode,
        base64_roundtrip bytes hbytes]
  · intro hrun
    exact ⟨by simp [createVisualization, hrun],
      by simp [createVisualization, hrun]⟩

/-- C5, witness: a script that writes the bytes `[0, 255, 17]`. -/
theorem createVisualization_roundtrip_spec_witness :
    (createVisualization "plt" (fun _ => VizOutcome.ok (some [0, 255, 17]))
      none).1.success = true ∧
    (createVisualization "plt" (fun _ => VizOutcome.ok (some [0, 255, 17]))
      none).1.image_base64 = some (base64Encode [0, 255, 17]) ∧
    base64Decode (base64Encode [0, 255, 17]) = some [0, 255, 17] ∧
    (createVisualization "plt" (fun _ => VizOutcome.ok (some [0, 255, 17]))
      none).2 = none :=
  (createVisualization_roundtrip_spec "plt"
    (fun _ => VizOutcome.ok (some [0, 255, 17])) none).1
    [0, 255, 17] rfl (by decide)

/-- C7, counterexample.  The text consists of exactly one well-formed
fenced span (opened by a fence-open line, closed by the very next line,
which is the bare close marker), so the claim demands one script; but
the extractor appends a block only `if current_block:`, so the empty
span contributes nothing and zero scripts come back. -/
theorem extractCodeBlocks_drops_empty_span :
    chunksOK [Chunk.span "```python" [] "```"] = true ∧
    splitLines "```python\n```" =
      renderChunks [Chunk.span "```python" [] "```"] ∧
    (chunkSpans [Chunk.span "```python" [] "```"]).length = 1 ∧
    extractCodeBlocks "```python\n```" = [] := by
  decide

/-- C7, amended: for a completion text whose lines decompose into prose
and N well-formed fenced spans, the extractor yields exactly the bodies
of the spans with a non-empty body, joined and in source order —
interleaved prose is ignored, an empty span contributes no script, and
an open span unterminated at end-of-input contributes no script. -/
theorem extractCodeBlocks_wellFenced_spec (text : String) (cs : List Chunk)
    (hok : chunksOK cs = true) (hsplit : splitLines text = renderChunks cs) :
    extractCodeBlocks text =
      ((chunkSpans cs).filter (fun b => !b.isEmpty)).map joinLines := by
  rw [extractCodeBlocks, hsplit]
  exact extractLoop_chunks cs [] hok

/-- C7, witness: prose, one two-line span, prose — exactly one script,
with the body joined in order. -/
theorem extractCodeBlocks_wellFenced_spec_witness :
    extractCodeBlocks "intro\n```python\nx = 1\ny = 2\n```\nbye" =
      ["x = 1\ny = 2"] := by
  have h := extractCodeBlocks_wellFenced_spec
    "intro\n```python\nx = 1\ny = 2\n```\nbye"
    [Chunk.prose "intro", Chunk.span "```python" ["x = 1", "y = 2"] "```",
     Chunk.prose "bye"] (by decide) (by decide)
  rw [h]
  decide

/-- C10: with at least one extracted Plotting script, the envelope has
`success=true`, its visualizations list is exactly the successful
per-script artifacts in execution order, the count counts only those,
and a failed script leaves no record in the list. -/
theorem vizProcess_success_filter_spec (mc : String → Except String String)
    (sem : String → VizScript) (fs : Option (List Nat)) (p text : String)
    (hmc : mc p = .ok text)
    (hne : (extractCodeBlocks text).isEmpty = false) :
    ∀ env fs2, vizProcess (.ok p) mc sem fs = .ok (env, fs2) →
      env.success = true ∧
      env.visualizations =
        (vizResultsAll sem (extractCodeBlocks text) fs).1.filter
          (fun r => r.success) ∧
      env.visualization_count = env.visualizations.length ∧
      ∀ r ∈ (vizResultsAll sem (extractCodeBlocks text) fs).1,
        r.success = false → r ∉ env.visualizations := by
  intro env fs2 henv
  rw [vizProcess] at henv
  simp [hmc, hne] at henv
  have hv : env.visualizations =
      (vizLoop sem (extractCodeBlocks text) fs).1 := by
    rw [← henv.1]
  have hs : env.success = true := by rw [← henv.1]
  have hc : env.visualization_count =
      (vizLoop sem (extractCodeBlocks text) fs).1.length := by
    rw [← henv.1]
  rw [vizLoop_eq_filter] at hv hc
  refine ⟨hs, hv, by rw [hc, hv], ?_⟩
  intro r _ hrfail hmem
  rw [hv] at hmem
  have := List.of_mem_filter hmem
  rw [hrfail] at this
  exact absurd this (by simp)

/-- Fixtures for the C10 witness: two scripts, `a` produces no file,
`b` writes one byte. -/
def vizTextW : String := "```python\na\n```\n```python\nb\n```"

def vizSemW : String → VizScript :=
  fun c _ => if c = "b" then VizOutcome.ok (some [1]) else VizOutcome.ok none

def envVizW : VizEnvelope :=
  { success := true, message := "Created 1 visualizations",
    agent_name := "VisualizationAgent",
    next_agent := some "AnswerSynthesiser",
    visualizations := [{ code := "b", success := true,
                         image_base64 := some (base64Encode [1]),
                         error := none,
                         description := "Visualization created successfully" }],
    visualization_count := 1 }

/-- C10, witness: only the successful script `b` is listed and counted;
the failed script `a` leaves no record. -/
theorem vizProcess_success_filter_spec_witness :
    envVizW.success = true ∧
    envVizW.visualizations =
      (vizResultsAll vizSemW (extractCodeBlocks vizTextW) none).1.filter
        (fun r => r.success) ∧
    envVizW.visualization_count = envVizW.visualizations.length := by
  have heq : vizProcess (.ok "p") (fun _ => Except.ok vizTextW) vizSemW
      none = .ok (envVizW, none) := by rfl
  have h := vizProcess_success_filter_spec (fun _ => Except.ok vizTextW)
    vizSemW none "p" vizTextW rfl (by decide) envVizW none heq
  exact ⟨h.1, h.2.1, h.2.2.1⟩

end MultiAgent
